import Mathlib

/-!
Shallow embedding of the Akson web client (`AksonApp`, file `app.js` of the
local-storage version of the repository).

Modelling conventions:

* JavaScript timestamps (`Date.now()`, `new Date().toISOString()`) are modelled
  as a `Nat` (milliseconds since the epoch) injected as a `now` parameter at
  every operation that reads the clock.  Card and deck ids, which the source
  produces as `Date.now().toString()`, are modelled as that same `Nat`.
* Card objects live on a heap.  `AppState.cardStore` is an association list
  from object identity (modelled by the card's id number) to the card's
  current field values; decks and sessions hold lists of ids, i.e. lists of
  references.  This captures the source's aliasing exactly: the spread copy
  `[...deck.cards]` in `startStudySession` copies the array of references
  (here: the id list), while the card objects themselves stay shared.
* Numeric card fields `interval` and `easeFactor` are rationals (`2.5 = 5/2`).
* DOM writes that the study flow performs (question text, visibility of the
  answer container, the show-answer button and the rating buttons, and the
  progress text) are modelled as fields of `AppState`; purely decorative
  rendering (deck lists, dashboard statistics, modals) is omitted.
* `rateCard` returns `Option AppState`: the source reads
  `this.currentStudySession.cards[currentIndex]` and immediately assigns to
  `card.lastReviewed`; past the end of the array the element is `undefined`
  and the assignment throws a `TypeError` before any state is mutated.
  `none` models that exception, `some s` a normal return with new state `s`.
-/

namespace Akson

/-- Whitespace trim, the semantics of JavaScript `String.prototype.trim` (and
of core `String.trim`), implemented over the character list so that the kernel
can evaluate it on literals: drop leading and trailing whitespace. -/
def strTrim (s : String) : String :=
  ⟨((s.data.dropWhile Char.isWhitespace).reverse.dropWhile Char.isWhitespace).reverse⟩

/-- Card record as built by `handleAddCard`: content plus scheduling fields
`interval`, `easeFactor`, `repetitions`, `nextReview`, and the `lastReviewed`
stamp that `rateCard` writes (absent until the first review). -/
structure Card where
  id : Nat
  question : String
  answer : String
  createdAt : Nat
  nextReview : Nat
  interval : ℚ
  easeFactor : ℚ
  repetitions : Nat
  lastReviewed : Option Nat
deriving Repr, DecidableEq

/-- Deck record as built by `handleAddDeck`; `cards` is the array of card
object references, modelled as ids into the card store. -/
structure Deck where
  id : Nat
  name : String
  description : String
  createdAt : Nat
  cards : List Nat
deriving Repr, DecidableEq

/-- The object assigned to `this.currentStudySession` in `startStudySession`:
deck id, the spread-copied card reference array, and the cursor. -/
structure StudySession where
  deckId : Nat
  cards : List Nat
  currentIndex : Nat
deriving Repr, DecidableEq

/-- Application state: the `AksonApp` instance fields plus the DOM cells the
study flow writes. -/
structure AppState where
  decks : List Deck
  cardStore : List (Nat × Card)
  currentStudySession : Option StudySession
  currentDeckId : Option Nat
  currentCardIndex : Nat
  questionText : String
  answerVisible : Bool
  showAnswerBtnVisible : Bool
  ratingBtnsVisible : Bool
  progressText : Option (Nat × Nat)
deriving Repr, DecidableEq

/-- Heap read: the card object a reference points at. -/
def storeGet (store : List (Nat × Card)) (cid : Nat) : Option Card :=
  (store.find? (fun p => p.1 == cid)).map (fun p => p.2)

/-- Heap write: update the object a reference points at (first entry with the
given key), leaving the rest of the heap alone. -/
def storeSet (store : List (Nat × Card)) (cid : Nat) (f : Card → Card) :
    List (Nat × Card) :=
  match store with
  | [] => []
  | p :: rest => if p.1 == cid then (p.1, f p.2) :: rest else p :: storeSet rest cid f

/-- Counterpart of `this.decks.find(d => d.id === deckId)`. -/
def findDeck (decks : List Deck) (deckId : Nat) : Option Deck :=
  decks.find? (fun d => d.id == deckId)

/-- In-place mutation of the first deck with the given id (the source mutates
the object returned by `decks.find`). -/
def updateDeck (decks : List Deck) (deckId : Nat) (f : Deck → Deck) : List Deck :=
  match decks with
  | [] => []
  | d :: rest => if d.id == deckId then f d :: rest else d :: updateDeck rest deckId f

/-- Fresh state of `AksonApp` with empty `localStorage`: `loadDecks` returns
`[]` and no session is active. -/
def initialState : AppState where
  decks := []
  cardStore := []
  currentStudySession := none
  currentDeckId := none
  currentCardIndex := 0
  questionText := ""
  answerVisible := false
  showAnswerBtnVisible := false
  ratingBtnsVisible := false
  progressText := none

/-- Card literal of `handleAddCard`: `interval: 0`, `easeFactor: 2.5`,
`repetitions: 0`, `nextReview` the creation instant, no `lastReviewed`. -/
def newCard (question answer : String) (now : Nat) : Card where
  id := now
  question := strTrim question
  answer := strTrim answer
  createdAt := now
  nextReview := now
  interval := 0
  easeFactor := mkRat 5 2
  repetitions := 0
  lastReviewed := none

/-- Deck literal of `handleAddDeck`. -/
def newDeck (name description : String) (now : Nat) : Deck where
  id := now
  name := strTrim name
  description := strTrim description
  createdAt := now
  cards := []

/-- Embedding of `handleAddDeck` (modal plumbing dropped): empty trimmed name
is rejected silently, otherwise the new deck is pushed. -/
def handleAddDeck (s : AppState) (name description : String) (now : Nat) : AppState :=
  if strTrim name = "" then s
  else { s with decks := s.decks ++ [newDeck name description now] }

/-- Embedding of `handleAddCard`: blank question or answer, or an unknown deck
id, is a silent no-op; otherwise a fresh card object is allocated and its
reference pushed onto the deck's array. -/
def handleAddCard (s : AppState) (deckId : Nat) (question answer : String)
    (now : Nat) : AppState :=
  if strTrim question = "" ∨ strTrim answer = "" then s
  else
    match findDeck s.decks deckId with
    | none => s
    | some _ =>
        { s with
          decks := updateDeck s.decks deckId (fun d => { d with cards := d.cards ++ [now] })
          cardStore := s.cardStore ++ [(now, newCard question answer now)] }

/-- Placeholder object for a dangling card reference; with a well-formed heap
(every reference held by a deck or session is allocated) it is never read. -/
def defaultCard : Card := newCard "" "" 0

/-- Embedding of `nextCard`: with no session or an exhausted cursor it shows
the completion message and hides answer, show-answer button and rating
buttons; otherwise it shows the current card's question, resets the
answer/button visibility to the question phase, and writes
`currentIndex/cards.length` into the progress text. -/
def nextCard (s : AppState) : AppState :=
  match s.currentStudySession with
  | none =>
      { s with questionText := "Study session completed!"
               answerVisible := false
               showAnswerBtnVisible := false
               ratingBtnsVisible := false }
  | some ss =>
      if ss.cards.length ≤ ss.currentIndex then
        { s with questionText := "Study session completed!"
                 answerVisible := false
                 showAnswerBtnVisible := false
                 ratingBtnsVisible := false }
      else
        let card := ((ss.cards.get? ss.currentIndex).bind
          (fun cid => storeGet s.cardStore cid)).getD defaultCard
        { s with questionText := card.question
                 answerVisible := false
                 showAnswerBtnVisible := true
                 ratingBtnsVisible := false
                 progressText := some (ss.currentIndex, ss.cards.length) }

/-- Embedding of `showAnswer`: pure DOM toggle, reveals the answer and the
rating buttons; it checks nothing and touches no session or card state. -/
def showAnswer (s : AppState) : AppState :=
  { s with answerVisible := true
           showAnswerBtnVisible := false
           ratingBtnsVisible := true }

/-- Embedding of `startStudySession`: unknown deck or an empty card array is a
silent `return;` with no state change; otherwise the cursor fields are reset,
the session object is built with a spread copy `[...deck.cards]` of the
reference array, and `nextCard` renders the first question.  (The source runs
`nextCard` twice, once via `switchView → renderStudyView`; `nextCard` is
idempotent, so one application is faithful.) -/
def startStudySession (s : AppState) (deckId : Nat) : AppState :=
  match findDeck s.decks deckId with
  | none => s
  | some deck =>
      if deck.cards.length = 0 then s
      else
        nextCard
          { s with
            currentDeckId := some deckId
            currentCardIndex := 0
            currentStudySession :=
              some { deckId := deckId, cards := deck.cards, currentIndex := 0 } }

/-- Embedding of `rateCard`.  The `rating` argument (the button's
`data-rating` value) is received but never read, exactly as in the source.
With no active session the method silently returns (`some s`).  Otherwise the
current card object gets `lastReviewed := now`, the cursor advances by one and
`nextCard` renders; a cursor past the end of the array throws (`none`) before
mutating anything. -/
def rateCard (s : AppState) (rating : Nat) (now : Nat) : Option AppState :=
  match s.currentStudySession with
  | none => some s
  | some ss =>
      match ss.cards.get? ss.currentIndex with
      | none => none
      | some cid =>
          some (nextCard
            { s with
              cardStore := storeSet s.cardStore cid
                (fun c => { c with lastReviewed := some now })
              currentStudySession := some { ss with currentIndex := ss.currentIndex + 1 } })

/-- Embedding of `deleteDeck`: behind the `confirm()` dialog, the deck is
filtered out of `this.decks`; the card store (live card objects) and any
running session are untouched. -/
def deleteDeck (s : AppState) (deckId : Nat) (confirmed : Bool) : AppState :=
  if confirmed then { s with decks := s.decks.filter (fun d => d.id != deckId) }
  else s

/-- Public operations of the app, for reasoning about arbitrary interaction
sequences. -/
inductive Op where
  | addDeck (name description : String) (now : Nat)
  | addCard (deckId : Nat) (question answer : String) (now : Nat)
  | startSession (deckId : Nat)
  | showAns
  | rate (rating : Nat) (now : Nat)
  | delDeck (deckId : Nat) (confirmed : Bool)
deriving Repr, DecidableEq

/-- Step function dispatching one operation.  A `rateCard` call that throws
leaves the state as it was (the exception fires before any mutation). -/
def step (s : AppState) (op : Op) : AppState :=
  match op with
  | .addDeck name description now => handleAddDeck s name description now
  | .addCard deckId q a now => handleAddCard s deckId q a now
  | .startSession deckId => startStudySession s deckId
  | .showAns => showAnswer s
  | .rate rating now => (rateCard s rating now).getD s
  | .delDeck deckId confirmed => deleteDeck s deckId confirmed

/-- Run a sequence of operations. -/
def run (s : AppState) (ops : List Op) : AppState :=
  ops.foldl step s

/-- The pair `(cursor, total)` of the active session; the source renders
exactly this pair as the `X/Y` progress text (`nextCard`, progress update). -/
def progressPair (s : AppState) : Option (Nat × Nat) :=
  s.currentStudySession.map (fun ss => (ss.currentIndex, ss.cards.length))

/-- Completion test of `nextCard`: an active session whose cursor has reached
the end of its card array. -/
def sessionComplete (s : AppState) : Bool :=
  match s.currentStudySession with
  | none => false
  | some ss => ss.cards.length ≤ ss.currentIndex

/-- Scheduling-state invariant the spec demands per card: ease factor at least
1.3 and non-negative interval. -/
def cardInv (c : Card) : Prop :=
  mkRat 13 10 ≤ c.easeFactor ∧ (0 : ℚ) ≤ c.interval

instance : DecidablePred cardInv := fun c => by
  unfold cardInv; infer_instance

/-- Every allocated card object satisfies `cardInv`. -/
def stateInv (s : AppState) : Prop :=
  ∀ p ∈ s.cardStore, cardInv p.2

instance : DecidablePred stateInv := fun s => by
  unfold stateInv; infer_instance

/-- Rating operations built from a list of (rating, clock) pairs, for stating
properties of a whole pass over a session. -/
def rateOps (ks : List (Nat × Nat)) : List Op :=
  ks.map (fun p => Op.rate p.1 p.2)

/-- Operations that edit the deck collection or a deck's card list (the only
deck edits the app offers); starting a session, revealing and rating belong to
the session itself and are excluded. -/
def isDeckEdit : Op → Bool
  | .addDeck _ _ _ => true
  | .addCard _ _ _ _ => true
  | .delDeck _ _ => true
  | _ => false

/-- Concrete state for witnesses: one deck (id 1) holding two cards (ids 10
and 11) with a study session just started on it. -/
def demoState : AppState :=
  run initialState
    [Op.addDeck "Spanish" "basics" 1, Op.addCard 1 "hola" "hello" 10,
     Op.addCard 1 "adios" "goodbye" 11, Op.startSession 1]

/-- Concrete state for witnesses: the same deck and cards as `demoState` but
with no session started yet. -/
def twoCardState : AppState :=
  run initialState
    [Op.addDeck "Spanish" "basics" 1, Op.addCard 1 "hola" "hello" 10,
     Op.addCard 1 "adios" "goodbye" 11]

/-- Deck value that `twoCardState` and `demoState` hold: id 1 with the two
card references 10 and 11. -/
def spanishDeck : Deck where
  id := 1
  name := "Spanish"
  description := "basics"
  createdAt := 1
  cards := [10, 11]

/-- Concrete state with a single deck (id 1) that has no cards. -/
def emptyDeckState : AppState :=
  run initialState [Op.addDeck "Empty" "" 1]

/-- Concrete state for the spec's first scheduling scenario: a fresh card
(`interval 0`, `easeFactor 2.5`, `repetitions 0`) in a one-card deck, with a
session started on it. -/
def goodState : AppState :=
  run initialState [Op.addDeck "G" "" 1, Op.addCard 1 "q" "a" 10, Op.startSession 1]

/-- Card of the spec's "again" scenario: `interval 10`, `easeFactor 2.0`,
`repetitions 3`.  The running code can never produce such a card (it never
writes the scheduling fields), so the state is built directly. -/
def seasonedCard : Card where
  id := 20
  question := "q"
  answer := "a"
  createdAt := 5
  nextReview := 50
  interval := 10
  easeFactor := 2
  repetitions := 3
  lastReviewed := some 50

/-- Concrete state holding `seasonedCard` in an active one-card session. -/
def againState : AppState :=
  { initialState with
    decks := [{ id := 1, name := "D", description := "", createdAt := 0, cards := [20] }]
    cardStore := [(20, seasonedCard)]
    currentStudySession := some { deckId := 1, cards := [20], currentIndex := 0 } }

/-! Helper lemmas about the heap and the study-flow helpers. -/

theorem storeGet_cons_pos (p : Nat × Card) (rest : List (Nat × Card)) (cid : Nat)
    (h : p.1 = cid) : storeGet (p :: rest) cid = some p.2 := by
  unfold storeGet
  rw [List.find?_cons_of_pos rest (by simp [h])]
  rfl

theorem storeGet_cons_neg (p : Nat × Card) (rest : List (Nat × Card)) (cid : Nat)
    (h : p.1 ≠ cid) : storeGet (p :: rest) cid = storeGet rest cid := by
  unfold storeGet
  rw [List.find?_cons_of_neg rest (by simp [beq_eq_false_iff_ne.mpr h])]

theorem storeSet_cons_pos (p : Nat × Card) (rest : List (Nat × Card)) (cid : Nat)
    (f : Card → Card) (h : p.1 = cid) :
    storeSet (p :: rest) cid f = (p.1, f p.2) :: rest := by
  unfold storeSet
  rw [if_pos (beq_iff_eq.mpr h)]


theorem storeSet_cons_neg (p : Nat × Card) (rest : List (Nat × Card)) (cid : Nat)
    (f : Card → Card) (h : p.1 ≠ cid) :
    storeSet (p :: rest) cid f = p :: storeSet rest cid f := by
  conv_lhs => rw [storeSet]
  rw [if_neg (by simp [beq_eq_false_iff_ne.mpr h])]

theorem storeGet_storeSet_self (st : List (Nat × Card)) (cid : Nat) (f : Card → Card) :
    storeGet (storeSet st cid f) cid = (storeGet st cid).map f := by
  induction st with
  | nil => rfl
  | cons p rest ih =>
      by_cases h : p.1 = cid
      · rw [storeSet_cons_pos p rest cid f h,
          storeGet_cons_pos (p.1, f p.2) rest cid h, storeGet_cons_pos p rest cid h]
        rfl
      · rw [storeSet_cons_neg p rest cid f h,
          storeGet_cons_neg p (storeSet rest cid f) cid h, storeGet_cons_neg p rest cid h]
        exact ih

theorem storeGet_storeSet_ne (st : List (Nat × Card)) (cid cid2 : Nat) (f : Card → Card)
    (h : cid2 ≠ cid) :
    storeGet (storeSet st cid f) cid2 = storeGet st cid2 := by
  induction st with
  | nil => rfl
  | cons p rest ih =>
      by_cases hp : p.1 = cid
      · have hne2 : p.1 ≠ cid2 := fun hc => h (hc ▸ hp)
        rw [storeSet_cons_pos p rest cid f hp,
          storeGet_cons_neg (p.1, f p.2) rest cid2 hne2,
          storeGet_cons_neg p rest cid2 hne2]
      · by_cases hq : p.1 = cid2
        · rw [storeSet_cons_neg p rest cid f hp,
            storeGet_cons_pos p (storeSet rest cid f) cid2 hq,
            storeGet_cons_pos p rest cid2 hq]
        · rw [storeSet_cons_neg p rest cid f hp,
            storeGet_cons_neg p (storeSet rest cid f) cid2 hq,
            storeGet_cons_neg p rest cid2 hq]
          exact ih

theorem storeGet_append_of_isSome (st l : List (Nat × Card)) (cid : Nat)
    (h : (storeGet st cid).isSome) :
    storeGet (st ++ l) cid = storeGet st cid := by
  induction st with
  | nil => simp [storeGet] at h
  | cons p rest ih =>
      by_cases hp : p.1 = cid
      · rw [List.cons_append, storeGet_cons_pos p (rest ++ l) cid hp,
          storeGet_cons_pos p rest cid hp]
      · rw [storeGet_cons_neg p rest cid hp] at h
        rw [List.cons_append, storeGet_cons_neg p (rest ++ l) cid hp,
          storeGet_cons_neg p rest cid hp]
        exact ih h

theorem mem_storeSet (st : List (Nat × Card)) (cid : Nat) (f : Card → Card)
    (p : Nat × Card) (hp : p ∈ storeSet st cid f) :
    p ∈ st ∨ ∃ q ∈ st, p = (q.1, f q.2) := by
  induction st with
  | nil => simp [storeSet] at hp
  | cons q rest ih =>
      by_cases hq : q.1 = cid
      · rw [storeSet_cons_pos q rest cid f hq, List.mem_cons] at hp
        rcases hp with hp | hp
        · exact Or.inr ⟨q, List.mem_cons_self q rest, hp⟩
        · exact Or.inl (List.mem_cons_of_mem q hp)
      · rw [storeSet_cons_neg q rest cid f hq, List.mem_cons] at hp
        rcases hp with hp | hp
        · exact Or.inl (by simp [hp])
        · rcases ih hp with h | ⟨r, hr, hpr⟩
          · exact Or.inl (List.mem_cons_of_mem q h)
          · exact Or.inr ⟨r, List.mem_cons_of_mem q hr, hpr⟩

theorem nextCard_cardStore (s : AppState) : (nextCard s).cardStore = s.cardStore := by
  unfold nextCard
  cases s.currentStudySession with
  | none => rfl
  | some ss => dsimp only; split <;> rfl

theorem nextCard_decks (s : AppState) : (nextCard s).decks = s.decks := by
  unfold nextCard
  cases s.currentStudySession with
  | none => rfl
  | some ss => dsimp only; split <;> rfl

theorem nextCard_session (s : AppState) :
    (nextCard s).currentStudySession = s.currentStudySession := by
  unfold nextCard
  cases s.currentStudySession with
  | none => rfl
  | some ss => dsimp only; split <;> rfl

theorem cardInv_newCard (q a : String) (now : Nat) : cardInv (newCard q a now) := by
  constructor
  · show mkRat 13 10 ≤ mkRat 5 2
    decide
  · show (0 : ℚ) ≤ 0
    decide

theorem stateInv_step (s : AppState) (op : Op) (h : stateInv s) : stateInv (step s op) := by
  cases op with
  | addDeck name description now =>
      show stateInv (handleAddDeck s name description now)
      unfold handleAddDeck
      split
      · exact h
      · exact h
  | addCard deckId q a now =>
      show stateInv (handleAddCard s deckId q a now)
      unfold handleAddCard
      split
      · exact h
      · split
        · exact h
        · intro p hp
          rcases List.mem_append.mp hp with hp | hp
          · exact h p hp
          · rcases List.mem_singleton.mp hp with rfl
            exact cardInv_newCard q a now
  | startSession deckId =>
      show stateInv (startStudySession s deckId)
      unfold startStudySession
      split
      · exact h
      · split
        · exact h
        · intro p hp
          rw [nextCard_cardStore] at hp
          exact h p hp
  | showAns => exact h
  | rate rating now =>
      show stateInv ((rateCard s rating now).getD s)
      unfold rateCard
      cases hs : s.currentStudySession with
      | none => dsimp only; exact h
      | some ss =>
          dsimp only
          cases hc : ss.cards.get? ss.currentIndex with
          | none => dsimp only; exact h
          | some cid =>
              dsimp only
              rw [Option.getD_some]
              intro p hp
              rw [nextCard_cardStore] at hp
              dsimp only at hp
              rcases mem_storeSet _ _ _ p hp with hp | ⟨q, hq, rfl⟩
              · exact h p hp
              · exact h q hq
  | delDeck deckId confirmed =>
      show stateInv (deleteDeck s deckId confirmed)
      unfold deleteDeck
      split
      · exact h
      · exact h

theorem stateInv_run (s : AppState) (ops : List Op) (h : stateInv s) :
    stateInv (run s ops) := by
  induction ops generalizing s with
  | nil => exact h
  | cons op rest ih => exact ih (step s op) (stateInv_step s op h)

theorem rateCard_eq_of_inBounds (s : AppState) (ss : StudySession) (cid rating now : Nat)
    (hs : s.currentStudySession = some ss)
    (hc : ss.cards.get? ss.currentIndex = some cid) :
    rateCard s rating now =
      some (nextCard
        { s with
          cardStore := storeSet s.cardStore cid (fun c => { c with lastReviewed := some now })
          currentStudySession := some { ss with currentIndex := ss.currentIndex + 1 } }) := by
  unfold rateCard
  rw [hs]
  dsimp only
  rw [hc]

theorem step_rate_eq_of_inBounds (s : AppState) (ss : StudySession) (cid rating now : Nat)
    (hs : s.currentStudySession = some ss)
    (hc : ss.cards.get? ss.currentIndex = some cid) :
    step s (Op.rate rating now) =
      nextCard
        { s with
          cardStore := storeSet s.cardStore cid (fun c => { c with lastReviewed := some now })
          currentStudySession := some { ss with currentIndex := ss.currentIndex + 1 } } := by
  show (rateCard s rating now).getD s = _
  rw [rateCard_eq_of_inBounds s ss cid rating now hs hc]
  rfl

theorem run_rateOps_session (ks : List (Nat × Nat)) (s : AppState) (ss : StudySession)
    (hs : s.currentStudySession = some ss)
    (hk : ss.currentIndex + ks.length ≤ ss.cards.length) :
    (run s (rateOps ks)).currentStudySession
      = some { ss with currentIndex := ss.currentIndex + ks.length } := by
  induction ks generalizing s ss with
  | nil => exact hs
  | cons p ks ih =>
      simp only [List.length_cons] at hk
      have hidx : ss.currentIndex < ss.cards.length := by omega
      have hcid : ss.cards.get? ss.currentIndex = some (ss.cards.get ⟨ss.currentIndex, hidx⟩) :=
        List.get?_eq_get hidx
      show (run (step s (Op.rate p.1 p.2)) (rateOps ks)).currentStudySession = _
      rw [step_rate_eq_of_inBounds s ss _ p.1 p.2 hs hcid]
      have hs' :
          (nextCard
            { s with
              cardStore := storeSet s.cardStore (ss.cards.get ⟨ss.currentIndex, hidx⟩)
                (fun c => { c with lastReviewed := some p.2 })
              currentStudySession :=
                some { ss with currentIndex := ss.currentIndex + 1 } }).currentStudySession
            = some { ss with currentIndex := ss.currentIndex + 1 } := by
        rw [nextCard_session]
      have hk' : ({ ss with currentIndex := ss.currentIndex + 1 } : StudySession).currentIndex
          + ks.length ≤ ({ ss with currentIndex := ss.currentIndex + 1 } : StudySession).cards.length := by
        show ss.currentIndex + 1 + ks.length ≤ ss.cards.length
        omega
      rw [ih _ _ hs' hk']
      congr 2
      show ss.currentIndex + 1 + ks.length = ss.currentIndex + (ks.length + 1)
      omega

theorem nextCard_progressText (s : AppState) (ss : StudySession)
    (hs : s.currentStudySession = some ss) (h : ss.currentIndex < ss.cards.length) :
    (nextCard s).progressText = some (ss.currentIndex, ss.cards.length) := by
  unfold nextCard
  rw [hs]
  dsimp only
  rw [if_neg (by omega)]

theorem nextCard_question_phase (s : AppState) (ss : StudySession)
    (hs : s.currentStudySession = some ss) (h : ss.currentIndex < ss.cards.length) :
    (nextCard s).answerVisible = false ∧ (nextCard s).showAnswerBtnVisible = true ∧
    (nextCard s).ratingBtnsVisible = false := by
  unfold nextCard
  rw [hs]
  dsimp only
  rw [if_neg (by omega)]
  exact ⟨rfl, rfl, rfl⟩

theorem nextCard_flags (s : AppState) (a b c : Bool) :
    nextCard { s with answerVisible := a, showAnswerBtnVisible := b, ratingBtnsVisible := c }
      = nextCard s := by
  unfold nextCard
  dsimp only

/-! Claim theorems. -/

/-- C4: every card created through the public interface starts with
`interval 0`, `easeFactor 2.5`, `repetitions 0`, and after any finite sequence
of operations (ratings included) every card in the store still satisfies
`easeFactor ≥ 1.3` and `interval ≥ 0`. -/
theorem rating_invariants (s : AppState) (ops : List Op) (q a : String) (now : Nat)
    (h : stateInv s) :
    stateInv (run s ops) ∧
    (newCard q a now).interval = 0 ∧
    (newCard q a now).easeFactor = mkRat 5 2 ∧
    (newCard q a now).repetitions = 0 :=
  ⟨stateInv_run s ops h, rfl, rfl, rfl⟩

theorem rating_invariants_witness :
    stateInv initialState ∧
    (stateInv (run initialState
        [Op.addDeck "Spanish" "basics" 1, Op.addCard 1 "hola" "hello" 10,
         Op.startSession 1, Op.rate 3 100, Op.rate 1 101]) ∧
      (newCard "hola" "hello" 10).interval = 0 ∧
      (newCard "hola" "hello" 10).easeFactor = mkRat 5 2 ∧
      (newCard "hola" "hello" 10).repetitions = 0) :=
  ⟨by decide,
   rating_invariants initialState
     [Op.addDeck "Spanish" "basics" 1, Op.addCard 1 "hola" "hello" 10,
      Op.startSession 1, Op.rate 3 100, Op.rate 1 101] "hola" "hello" 10 (by decide)⟩

/-- C10: calling `rateCard` with no active session returns normally (no
exception) and leaves the state exactly as it was: a silent no-op, not a
`SessionNotStarted` failure. -/
theorem rateCard_noSession (s : AppState) (rating now : Nat)
    (h : s.currentStudySession = none) :
    rateCard s rating now = some s := by
  unfold rateCard
  rw [h]

theorem rateCard_noSession_witness :
    initialState.currentStudySession = none ∧ rateCard initialState 3 0 = some initialState :=
  ⟨rfl, rateCard_noSession initialState 3 0 rfl⟩

/-- C3: for an active in-progress session and any rating value, `rateCard`
succeeds, advances the cursor by exactly one, leaves the decks untouched, and
the only card change is `lastReviewed := now` on the current card; every
card's `interval`, `easeFactor`, `repetitions` and `nextReview` are left
unchanged. -/
theorem rateCard_frame (s : AppState) (ss : StudySession) (cid cid2 : Nat) (c : Card)
    (rating now : Nat)
    (hs : s.currentStudySession = some ss)
    (hc : ss.cards.get? ss.currentIndex = some cid)
    (hget : storeGet s.cardStore cid2 = some c) :
    (rateCard s rating now).isSome = true ∧
    (step s (Op.rate rating now)).currentStudySession
        = some { ss with currentIndex := ss.currentIndex + 1 } ∧
    (step s (Op.rate rating now)).decks = s.decks ∧
    storeGet (step s (Op.rate rating now)).cardStore cid2
        = some (if cid2 = cid then { c with lastReviewed := some now } else c) := by
  have hr := step_rate_eq_of_inBounds s ss cid rating now hs hc
  refine ⟨?_, ?_, ?_, ?_⟩
  · rw [rateCard_eq_of_inBounds s ss cid rating now hs hc]
    rfl
  · rw [hr, nextCard_session]
  · rw [hr, nextCard_decks]
  · rw [hr, nextCard_cardStore]
    dsimp only
    by_cases hcc : cid2 = cid
    · subst hcc
      rw [if_pos rfl, storeGet_storeSet_self, hget]
      rfl
    · rw [if_neg hcc, storeGet_storeSet_ne _ _ _ _ hcc, hget]

theorem rateCard_frame_witness :
    (demoState.currentStudySession
        = some { deckId := 1, cards := [10, 11], currentIndex := 0 } ∧
     ([10, 11] : List Nat).get? 0 = some 10 ∧
     storeGet demoState.cardStore 11 = some (newCard "adios" "goodbye" 11)) ∧
    ((rateCard demoState 3 100).isSome = true ∧
     (step demoState (Op.rate 3 100)).currentStudySession
        = some { deckId := 1, cards := [10, 11], currentIndex := 1 } ∧
     (step demoState (Op.rate 3 100)).decks = demoState.decks ∧
     storeGet (step demoState (Op.rate 3 100)).cardStore 11
        = some (if 11 = 10 then { newCard "adios" "goodbye" 11 with lastReviewed := some 100 }
                else newCard "adios" "goodbye" 11)) :=
  ⟨⟨by decide, by decide, by decide⟩,
   rateCard_frame demoState ⟨1, [10, 11], 0⟩ 10 11 (newCard "adios" "goodbye" 11) 3 100
     (by decide) (by decide) (by decide)⟩

/-- C9: every deck-editing operation the app offers (adding a deck, adding a
card to any deck, deleting a deck) leaves an in-progress session untouched:
the session object (its `[...deck.cards]` reference snapshot and cursor) is
unchanged and every card reachable from the session resolves to the same
object state as before the edit. -/
theorem session_snapshot (s : AppState) (ss : StudySession) (e : Op) (cid : Nat)
    (hs : s.currentStudySession = some ss)
    (he : isDeckEdit e = true)
    (hcid : cid ∈ ss.cards)
    (hwf : (storeGet s.cardStore cid).isSome = true) :
    (step s e).currentStudySession = some ss ∧
    storeGet (step s e).cardStore cid = storeGet s.cardStore cid := by
  cases e with
  | addDeck name description now =>
      show (handleAddDeck s name description now).currentStudySession = some ss ∧
        storeGet (handleAddDeck s name description now).cardStore cid
          = storeGet s.cardStore cid
      unfold handleAddDeck
      split
      · exact ⟨hs, rfl⟩
      · exact ⟨hs, rfl⟩
  | addCard deckId q a now =>
      show (handleAddCard s deckId q a now).currentStudySession = some ss ∧
        storeGet (handleAddCard s deckId q a now).cardStore cid = storeGet s.cardStore cid
      unfold handleAddCard
      split
      · exact ⟨hs, rfl⟩
      · split
        · exact ⟨hs, rfl⟩
        · exact ⟨hs, storeGet_append_of_isSome s.cardStore _ cid hwf⟩
  | startSession deckId => exact Bool.noConfusion he
  | showAns => exact Bool.noConfusion he
  | rate rating now => exact Bool.noConfusion he
  | delDeck deckId confirmed =>
      show (deleteDeck s deckId confirmed).currentStudySession = some ss ∧
        storeGet (deleteDeck s deckId confirmed).cardStore cid = storeGet s.cardStore cid
      unfold deleteDeck
      split
      · exact ⟨hs, rfl⟩
      · exact ⟨hs, rfl⟩

theorem session_snapshot_witness :
    (demoState.currentStudySession
        = some { deckId := 1, cards := [10, 11], currentIndex := 0 } ∧
     isDeckEdit (Op.addCard 1 "nuevo" "new" 99) = true ∧
     10 ∈ ([10, 11] : List Nat) ∧
     (storeGet demoState.cardStore 10).isSome = true) ∧
    ((step demoState (Op.addCard 1 "nuevo" "new" 99)).currentStudySession
        = some { deckId := 1, cards := [10, 11], currentIndex := 0 } ∧
     storeGet (step demoState (Op.addCard 1 "nuevo" "new" 99)).cardStore 10
        = storeGet demoState.cardStore 10) :=
  ⟨⟨by decide, by decide, by decide, by decide⟩,
   session_snapshot demoState ⟨1, [10, 11], 0⟩ (Op.addCard 1 "nuevo" "new" 99) 10
     (by decide) (by decide) (by decide) (by decide)⟩

/-- C5 counterexample: starting a session on a deck with zero cards does not
fail with an `EmptyDeck` error — the method is a total silent `return;`: the
call leaves the whole application state unchanged (in particular no session
exists and no error value or exception arises anywhere in the code path). -/
theorem startStudySession_emptyDeck_silent :
    startStudySession emptyDeckState 1 = emptyDeckState ∧
    (startStudySession emptyDeckState 1).currentStudySession = none := by
  decide

/-- C5 (amended): starting a session on an empty deck is a silent no-op that
leaves the state unchanged; start succeeds exactly when the deck's card list
is non-empty, in which case the cursor is set to 0 and the UI enters the
showing-question phase (answer hidden, show-answer button visible, rating
buttons hidden). -/
theorem startStudySession_spec (s : AppState) (deckId : Nat) (d : Deck)
    (hd : findDeck s.decks deckId = some d) :
    (d.cards = [] → startStudySession s deckId = s) ∧
    (d.cards ≠ [] →
      (startStudySession s deckId).currentStudySession
          = some { deckId := deckId, cards := d.cards, currentIndex := 0 } ∧
      (startStudySession s deckId).answerVisible = false ∧
      (startStudySession s deckId).showAnswerBtnVisible = true ∧
      (startStudySession s deckId).ratingBtnsVisible = false) := by
  constructor
  · intro hnil
    unfold startStudySession
    rw [hd]
    dsimp only
    rw [if_pos (by rw [hnil]; rfl)]
  · intro hne
    have hlen : ¬ d.cards.length = 0 := fun h0 => hne (List.length_eq_zero.mp h0)
    have hstart : startStudySession s deckId =
        nextCard
          { s with
            currentDeckId := some deckId
            currentCardIndex := 0
            currentStudySession :=
              some { deckId := deckId, cards := d.cards, currentIndex := 0 } } := by
      unfold startStudySession
      rw [hd]
      dsimp only
      rw [if_neg hlen]
    have hpos : (0 : Nat) < d.cards.length := Nat.pos_of_ne_zero hlen
    have hq := nextCard_question_phase
      { s with
        currentDeckId := some deckId
        currentCardIndex := 0
        currentStudySession :=
          some { deckId := deckId, cards := d.cards, currentIndex := 0 } }
      ⟨deckId, d.cards, 0⟩ rfl hpos
    refine ⟨?_, ?_, ?_, ?_⟩
    · rw [hstart, nextCard_session]
    · rw [hstart]
      exact hq.1
    · rw [hstart]
      exact hq.2.1
    · rw [hstart]
      exact hq.2.2

theorem startStudySession_spec_witness :
    findDeck twoCardState.decks 1 = some spanishDeck ∧
    ((spanishDeck.cards = [] → startStudySession twoCardState 1 = twoCardState) ∧
     (spanishDeck.cards ≠ [] →
       (startStudySession twoCardState 1).currentStudySession
           = some { deckId := 1, cards := spanishDeck.cards, currentIndex := 0 } ∧
       (startStudySession twoCardState 1).answerVisible = false ∧
       (startStudySession twoCardState 1).showAnswerBtnVisible = true ∧
       (startStudySession twoCardState 1).ratingBtnsVisible = false)) :=
  ⟨by decide, startStudySession_spec twoCardState 1 spanishDeck (by decide)⟩

/-- C7 counterexample: with the session in the showing-question phase (answer
hidden, rating buttons hidden, show-answer button visible — `revealAnswer` has
not been called), `rateCard` does not fail with `WrongPhase`: it succeeds and
changes state, advancing the cursor. -/
theorem rateCard_beforeReveal_succeeds :
    demoState.answerVisible = false ∧ demoState.ratingBtnsVisible = false ∧
    demoState.showAnswerBtnVisible = true ∧
    (rateCard demoState 3 100).isSome = true ∧
    ((rateCard demoState 3 100).getD demoState).currentStudySession
        = some { deckId := 1, cards := [10, 11], currentIndex := 1 } := by
  decide

/-- C7 (amended): `rateCard` performs no phase check at all: its result is
identical whatever the answer/button visibility flags are (the question/answer
phase exists only in the DOM, where the rating buttons are hidden until
`showAnswer`), and with an in-progress session it always succeeds. -/
theorem rateCard_ignores_phase (s : AppState) (ss : StudySession) (a b c : Bool)
    (rating now : Nat) (hs : s.currentStudySession = some ss) :
    rateCard { s with answerVisible := a, showAnswerBtnVisible := b, ratingBtnsVisible := c }
        rating now = rateCard s rating now ∧
    (ss.currentIndex < ss.cards.length → (rateCard s rating now).isSome = true) := by
  constructor
  · unfold rateCard
    dsimp only
    rw [hs]
    dsimp only
    cases hc : ss.cards.get? ss.currentIndex with
    | none => rfl
    | some cid =>
        dsimp only
        refine congrArg some ?_
        exact nextCard_flags
          { s with
            cardStore := storeSet s.cardStore cid (fun c => { c with lastReviewed := some now })
            currentStudySession := some { ss with currentIndex := ss.currentIndex + 1 } }
          a b c
  · intro h
    rw [rateCard_eq_of_inBounds s ss _ rating now hs (List.get?_eq_get h)]
    rfl

theorem rateCard_ignores_phase_witness :
    demoState.currentStudySession
        = some { deckId := 1, cards := [10, 11], currentIndex := 0 } ∧
    (rateCard
        { demoState with answerVisible := true, showAnswerBtnVisible := false,
                         ratingBtnsVisible := true } 3 100
      = rateCard demoState 3 100 ∧
     (({ deckId := 1, cards := [10, 11], currentIndex := 0 } : StudySession).currentIndex
          < ({ deckId := 1, cards := [10, 11], currentIndex := 0 } : StudySession).cards.length
        → (rateCard demoState 3 100).isSome = true)) :=
  ⟨by decide,
   rateCard_ignores_phase demoState ⟨1, [10, 11], 0⟩ true false true 3 100 (by decide)⟩

/-- C6: a session started on a deck with N cards is complete after exactly N
`rate` calls (and not before), and after the k-th rating the session's
progress pair — the `cursor/total` value the source renders as the `X/Y`
progress text — is `(k, N)`; for k < N the rendered progress text itself reads
`k/N` (starting at `0/N`). -/
theorem session_termination_progress (s : AppState) (deckId : Nat) (d : Deck)
    (ks : List (Nat × Nat))
    (hd : findDeck s.decks deckId = some d) (hne : d.cards ≠ [])
    (hk : ks.length ≤ d.cards.length) :
    progressPair (run (startStudySession s deckId) (rateOps ks))
        = some (ks.length, d.cards.length) ∧
    ((sessionComplete (run (startStudySession s deckId) (rateOps ks)) = true)
        ↔ ks.length = d.cards.length) ∧
    (ks.length < d.cards.length →
      (run (startStudySession s deckId) (rateOps ks)).progressText
          = some (ks.length, d.cards.length)) := by
  have hlen : ¬ d.cards.length = 0 := fun h0 => hne (List.length_eq_zero.mp h0)
  have hstart : startStudySession s deckId =
      nextCard
        { s with
          currentDeckId := some deckId
          currentCardIndex := 0
          currentStudySession :=
            some { deckId := deckId, cards := d.cards, currentIndex := 0 } } := by
    unfold startStudySession
    rw [hd]
    dsimp only
    rw [if_neg hlen]
  have hs1 : (startStudySession s deckId).currentStudySession
      = some ⟨deckId, d.cards, 0⟩ := by
    rw [hstart, nextCard_session]
  have hpos0 : (0 : Nat) < d.cards.length := Nat.pos_of_ne_zero hlen
  have hrun := run_rateOps_session ks (startStudySession s deckId) ⟨deckId, d.cards, 0⟩ hs1
    (by show 0 + ks.length ≤ d.cards.length; omega)
  refine ⟨?_, ?_, ?_⟩
  · unfold progressPair
    rw [hrun]
    show some (0 + ks.length, d.cards.length) = some (ks.length, d.cards.length)
    rw [Nat.zero_add]
  · unfold sessionComplete
    rw [hrun]
    show decide (d.cards.length ≤ 0 + ks.length) = true ↔ ks.length = d.cards.length
    rw [decide_eq_true_eq]
    omega
  · intro hlt
    rcases List.eq_nil_or_concat ks with rfl | ⟨l', p, rfl⟩
    · show (startStudySession s deckId).progressText = some (0, d.cards.length)
      rw [hstart]
      exact nextCard_progressText _ ⟨deckId, d.cards, 0⟩ rfl hpos0
    · have hlt' : l'.length + 1 < d.cards.length := by
        simpa [List.concat_eq_append] using hlt
      have hsplit : run (startStudySession s deckId) (rateOps (l'.concat p))
          = step (run (startStudySession s deckId) (rateOps l')) (Op.rate p.1 p.2) := by
        unfold rateOps run
        rw [List.concat_eq_append, List.map_append, List.foldl_append]
        rfl
      have hs2 : (run (startStudySession s deckId) (rateOps l')).currentStudySession
          = some ⟨deckId, d.cards, 0 + l'.length⟩ :=
        run_rateOps_session l' (startStudySession s deckId) ⟨deckId, d.cards, 0⟩ hs1
          (by show 0 + l'.length ≤ d.cards.length; omega)
      have hidx2 : 0 + l'.length < d.cards.length := by omega
      have hstep := step_rate_eq_of_inBounds
        (run (startStudySession s deckId) (rateOps l')) ⟨deckId, d.cards, 0 + l'.length⟩
        (d.cards.get ⟨0 + l'.length, hidx2⟩) p.1 p.2 hs2 (List.get?_eq_get hidx2)
      rw [hsplit, hstep]
      have harr : 0 + l'.length + 1 = (l'.concat p).length := by
        simp [List.concat_eq_append]
      refine Eq.trans
        (nextCard_progressText _ ⟨deckId, d.cards, 0 + l'.length + 1⟩ ?_ ?_) ?_
      · rfl
      · show 0 + l'.length + 1 < d.cards.length
        omega
      · show some (0 + l'.length + 1, d.cards.length)
            = some ((l'.concat p).length, d.cards.length)
        rw [harr]

theorem session_termination_progress_witness :
    (findDeck twoCardState.decks 1 = some spanishDeck ∧
     spanishDeck.cards ≠ [] ∧
     ([(3, 100), (1, 101)] : List (Nat × Nat)).length ≤ spanishDeck.cards.length) ∧
    (progressPair (run (startStudySession twoCardState 1) (rateOps [(3, 100), (1, 101)]))
        = some (2, spanishDeck.cards.length) ∧
     ((sessionComplete
          (run (startStudySession twoCardState 1) (rateOps [(3, 100), (1, 101)])) = true)
        ↔ ([(3, 100), (1, 101)] : List (Nat × Nat)).length = spanishDeck.cards.length) ∧
     (([(3, 100), (1, 101)] : List (Nat × Nat)).length < spanishDeck.cards.length →
       (run (startStudySession twoCardState 1) (rateOps [(3, 100), (1, 101)])).progressText
          = some (2, spanishDeck.cards.length))) :=
  ⟨⟨by decide, by decide, by decide⟩,
   session_termination_progress twoCardState 1 spanishDeck [(3, 100), (1, 101)]
     (by decide) (by decide) (by decide)⟩

/-- C1 (divergence evidence): the spec's "good" scenario on a fresh card
(`interval 0`, `easeFactor 2.5`, `repetitions 0`).  Rating "good" (3) should
yield `{interval 1, repetitions 1}` with `nextReview = now + 1 day`, and a
second "good" should yield `{interval 3, repetitions 2}`; the code's
`rateCard` is a stub (its own comment defers the real update to an
unimplemented FSRS step), so both ratings leave `interval`, `easeFactor`,
`repetitions` and `nextReview` untouched and only write `lastReviewed`. -/
theorem rateCard_good_stub :
    storeGet (run goodState [Op.rate 3 100]).cardStore 10
        = some { id := 10, question := "q", answer := "a", createdAt := 10, nextReview := 10,
                 interval := 0, easeFactor := mkRat 5 2, repetitions := 0,
                 lastReviewed := some 100 } ∧
    storeGet (run goodState [Op.rate 3 100, Op.startSession 1, Op.rate 3 200]).cardStore 10
        = some { id := 10, question := "q", answer := "a", createdAt := 10, nextReview := 10,
                 interval := 0, easeFactor := mkRat 5 2, repetitions := 0,
                 lastReviewed := some 200 } := by
  decide

/-- C2 (divergence evidence): the spec's "again" scenario on a card with
`interval 10`, `easeFactor 2.0`, `repetitions 3`.  Rating "again" (1) should
reset `repetitions` to 0, set `interval` to 0, lower `easeFactor` to 1.8 and
make the card due now; the code's stub `rateCard` leaves all four fields
exactly as they were and only writes `lastReviewed`. -/
theorem rateCard_again_stub :
    storeGet (run againState [Op.rate 1 100]).cardStore 20
        = some { seasonedCard with lastReviewed := some 100 } ∧
    seasonedCard.repetitions = 3 ∧ seasonedCard.interval = 10 ∧
    seasonedCard.easeFactor = 2 ∧ seasonedCard.nextReview = 50 := by
  decide

/-- C8 (divergence evidence): `rateCard` never validates its rating argument —
the parameter is not even read.  A rating of 7, outside {1,2,3,4}, does not
fail with `InvalidRating`: the call succeeds, behaves identically to a valid
rating of 3, and advances the session as usual. -/
theorem rateCard_rating_ignored :
    (rateCard demoState 7 100).isSome = true ∧
    rateCard demoState 7 100 = rateCard demoState 3 100 ∧
    ((rateCard demoState 7 100).getD demoState).currentStudySession
        = some { deckId := 1, cards := [10, 11], currentIndex := 1 } := by
  decide

end Akson

